import Mathlib

/-!
Verification of the Kaleidoscope-style lexer and recursive-descent parser in
`src/mine/toy.cpp` against its natural-language specification.

The C++ code is shallowly embedded:
* the character source consumed by `getchar` becomes a `List Char`; the
  scanner's `LastChar` register becomes an `Option Char` (`none` models the
  `EOF` sentinel);
* the token stream consumed by the parser becomes a `List Tok` together with
  the `CurTok` one-token lookahead register;
* the global `std::map<char,int> BinopPrecedence` becomes an association
  list threaded through the parser state (its `operator[]` default-insertion
  behaviour is modelled explicitly);
* `double` arithmetic of `strtod` is abstracted to exact rational
  arithmetic over `Rat` (the decimal-prefix acceptance behaviour of `strtod`
  is modelled; IEEE rounding is not);
* possibly non-terminating loops and recursion are bounded by explicit fuel:
  an outer `none` result means the computation did not finish within the
  given fuel, for any fuel.
-/

namespace Toy

/-! ## Character classification (C `ctype` functions, "C" locale / ASCII) -/

/-- C `isspace`: space (0x20) and the control characters 0x09..0x0D. -/
def isspaceC (c : Char) : Bool :=
  c.toNat = 32 || (9 ≤ c.toNat && c.toNat ≤ 13)

/-- C `isalpha` in the "C" locale: `a`..`z` or `A`..`Z`. -/
def isalphaC (c : Char) : Bool :=
  (97 ≤ c.toNat && c.toNat ≤ 122) || (65 ≤ c.toNat && c.toNat ≤ 90)

/-- C `isdigit`: `0`..`9`. -/
def isdigitC (c : Char) : Bool :=
  48 ≤ c.toNat && c.toNat ≤ 57

/-- C `isalnum`: alphabetic or digit. -/
def isalnumC (c : Char) : Bool :=
  isalphaC c || isdigitC c

/-- The accumulation condition of the numeric-literal loop in `gettok`:
`isdigit(LastChar) || LastChar == '.'`. -/
def isnumC (c : Char) : Bool :=
  isdigitC c || c = '.'

/-! ## Tokens -/

/-- The token vocabulary of `toy.cpp`: the `Token` enum plus the raw
single-character tokens (`gettok` returns the character value itself for
unknown characters).  The payload globals `IdentifierStr` and `NumVal` are
carried on the corresponding token. -/
inductive Tok where
  | eofTok : Tok
  | defTok : Tok
  | extTok : Tok
  | identTok (s : String) : Tok
  | numTok (v : Rat) : Tok
  | charTok (c : Char) : Tok
  deriving DecidableEq, Repr

/-- The `int` value `gettok` returns for a token: the negative enum values
`tok_eof = -1`, `tok_def = -2`, `tok_extern = -3`, `tok_identifier = -4`,
`tok_number = -5`, or the raw character code. -/
def tokCode : Tok → Int
  | Tok.eofTok => -1
  | Tok.defTok => -2
  | Tok.extTok => -3
  | Tok.identTok _ => -4
  | Tok.numTok _ => -5
  | Tok.charTok c => c.toNat

/-! ## The scanner `gettok` -/

/-- Scanner state: the persistent `LastChar` lookahead (`none` = `EOF` has
been read) and the remaining character stream behind it. -/
structure ScanState where
  lastChar : Option Char
  input : List Char
  deriving DecidableEq, Repr

/-- The whitespace-skipping loop `while (isspace(LastChar)) LastChar = getchar();`.
Returns the first non-space lookahead and the stream behind it. -/
def skipSpaces : Option Char → List Char → Option Char × List Char
  | none, inp => (none, inp)
  | some c, inp =>
    if isspaceC c then
      match inp with
      | [] => (none, [])
      | h :: t => skipSpaces (some h) t
    else (some c, inp)

/-- The shape shared by the identifier loop
`while (isalnum(LastChar = getchar())) IdentifierStr += LastChar;` and the
numeric `do { NumStr += LastChar; LastChar = getchar(); } while (...)` loop:
starting from an already-accumulated buffer, keep reading while the predicate
holds.  Returns the buffer, the lookahead the loop exits with, and the
remaining stream. -/
def scanWhile (p : Char → Bool) : List Char → List Char → List Char × Option Char × List Char
  | acc, [] => (acc, none, [])
  | acc, h :: t => if p h then scanWhile p (acc ++ [h]) t else (acc, some h, t)

/-- The keyword comparison in `gettok`: `IdentifierStr == "def"` returns
`tok_def`, `IdentifierStr == "extern"` returns `tok_extern`, anything else is
`tok_identifier` carrying the buffer. -/
def classifyIdent (s : String) : Tok :=
  if s = "def" then Tok.defTok
  else if s = "extern" then Tok.extTok
  else Tok.identTok s

/-- Digit-string value, as accumulated left to right. -/
def natOfDigits (l : List Char) : Nat :=
  l.foldl (fun a c => 10 * a + (c.toNat - 48)) 0

/-- Model of `strtod` on the buffers `gettok` builds (strings over digits and
`'.'`): standard decimal parsing of the longest acceptable prefix
`digits ['.' digits]`; anything after a second `'.'` is ignored.  The `double`
result is abstracted to the exact rational value. -/
def strtodQ (l : List Char) : Rat :=
  let ip := l.takeWhile isdigitC
  match l.dropWhile isdigitC with
  | d :: r2 =>
    if d = '.' then
      let fp := r2.takeWhile isdigitC
      (natOfDigits ip : Rat) + (natOfDigits fp : Rat) / (10 : Rat) ^ fp.length
    else (natOfDigits ip : Rat)
  | [] => (natOfDigits ip : Rat)

/-- The comment-discarding loop exactly as written in `toy.cpp`:
`do {} while (LastChar != EOF && LastChar != '\n' && LastChar != '\r');`.
The body is empty, so one iteration changes nothing; the loop is bounded here
by fuel and `none` means it did not exit within the fuel. -/
def commentSkip : Nat → Option Char → Option (Option Char)
  | 0, _ => none
  | n + 1, lc =>
    if lc ≠ none ∧ lc ≠ some '\n' ∧ lc ≠ some '\r' then commentSkip n lc
    else some lc

/-- The scanner `gettok` of `toy.cpp`, state-passing over `ScanState` and
bounded by fuel (`none` = did not return within the fuel).  Branch order and
loop shapes follow the source: skip whitespace; alphabetic → identifier /
keyword; digit or `'.'` → number via `strtod`; `'#'` → the (empty-bodied)
comment loop, then rescan unless `EOF`; `EOF` → `tok_eof`; otherwise return
the character itself and advance. -/
def gettok : Nat → ScanState → Option (Tok × ScanState)
  | 0, _ => none
  | n + 1, s =>
    match skipSpaces s.lastChar s.input with
    | (none, inp) => some (Tok.eofTok, ⟨none, inp⟩)
    | (some c, inp) =>
      if isalphaC c then
        match scanWhile isalnumC [c] inp with
        | (buf, lc, inp2) => some (classifyIdent (String.mk buf), ⟨lc, inp2⟩)
      else if isnumC c then
        match scanWhile isnumC [c] inp with
        | (buf, lc, inp2) => some (Tok.numTok (strtodQ buf), ⟨lc, inp2⟩)
      else if c = '#' then
        match commentSkip (n + 1) (some c) with
        | none => none
        | some none => some (Tok.eofTok, ⟨none, inp⟩)
        | some (some c2) => gettok n ⟨some c2, inp⟩
      else
        some (Tok.charTok c, ⟨inp.head?, inp.tail⟩)

/-! ## AST nodes -/

/-- The expression AST of `toy.cpp` as a closed sum: `NumberExprAST`,
`VariableExprAST`, `BinaryExprAST` and `CallExprAST` (raw owning pointers
become ordinary subterms). -/
inductive ExprAST where
  | NumberExprAST (val : Rat) : ExprAST
  | VariableExprAST (name : String) : ExprAST
  | BinaryExprAST (op : Char) (lhs rhs : ExprAST) : ExprAST
  | CallExprAST (callee : String) (args : List ExprAST) : ExprAST

/-- `PrototypeAST`: a function name and its parameter names. -/
structure PrototypeAST where
  name : String
  args : List String
  deriving DecidableEq, Repr

/-- `FunctionAST`: a prototype together with a body expression. -/
structure FunctionAST where
  proto : PrototypeAST
  body : ExprAST

/-! ## The precedence table -/

/-- `std::map<char, int> BinopPrecedence`, as an association list. -/
abbrev PrecMap : Type := List (Char × Int)

/-- Lookup without insertion (`std::map::find`). -/
def lookupPrec : PrecMap → Char → Option Int
  | [], _ => none
  | (k, v) :: t, c => if k = c then some v else lookupPrec t c

/-- `BinopPrecedence[c]`: `std::map::operator[]` value-initialises (to `0`)
and inserts a missing key, then returns the mapped value.  Returns the value
read and the possibly-grown map. -/
def mapIndex (m : PrecMap) (c : Char) : Int × PrecMap :=
  match lookupPrec m c with
  | some v => (v, m)
  | none => (0, m ++ [(c, 0)])

/-- The table as seeded by `main`: `'<' → 10`, `'+' → 20`, `'-' → 20`,
`'*' → 40`. -/
def BinopPrecedence : PrecMap :=
  [('<', 10), ('+', 20), ('-', 20), ('*', 40)]

/-! ## Parser state -/

/-- Parser-side state: the `CurTok` one-token lookahead register, the tokens
still to be delivered by the scanner, and the shared `BinopPrecedence` map
(mutated by `GetTokPrecedence`). -/
structure PState where
  curTok : Tok
  toks : List Tok
  prec : PrecMap
  deriving DecidableEq, Repr

/-- `getNextToken`: load the next token into `CurTok`.  Once the stream is
exhausted the scanner reports `tok_eof` forever. -/
def getNextToken (s : PState) : PState :=
  match s.toks with
  | [] => ⟨Tok.eofTok, [], s.prec⟩
  | t :: ts => ⟨t, ts, s.prec⟩

/-- `GetTokPrecedence` of `toy.cpp`: non-ASCII tokens (all the negative
`Token` enum values) give `-1`; otherwise the precedence is read with
`BinopPrecedence[CurTok]` (which default-inserts `0` for an absent key) and
`-1` is substituted only when the stored value is negative. -/
def GetTokPrecedence (t : Tok) (m : PrecMap) : Int × PrecMap :=
  match t with
  | Tok.charTok c =>
    if c.toNat ≤ 127 then
      match mapIndex m c with
      | (v, m2) => if v < 0 then (-1, m2) else (v, m2)
    else (-1, m)
  | _ => (-1, m)

/-- The payload of `IdentifierStr` visible to a parse routine entered with an
identifier in `CurTok`. -/
def identStrOf : Tok → String
  | Tok.identTok s => s
  | _ => ""

/-- The payload of `NumVal` visible to `ParseNumber`. -/
def numValOf : Tok → Rat
  | Tok.numTok v => v
  | _ => 0

/-- The character value stored into `BinaryExprAST::Op` from `int BinOp = CurTok`
(only ever read when `CurTok` is an ASCII character token). -/
def charOf : Tok → Char
  | Tok.charTok c => c
  | _ => '?'

/-- `ParseNumber`: build a `NumberExprAST` from `NumVal` and consume the
number token.  Never fails. -/
def ParseNumber (s : PState) : Option ExprAST × PState :=
  (some (ExprAST.NumberExprAST (numValOf s.curTok)), getNextToken s)

/-! ## Parse routines

Each routine returns `Option (Option X × PState)`: the outer `none` means the
fuel bound was hit (the mutual recursion of the source is bounded by an
explicit fuel argument), `some (none, s)` is the source's null result
(`Error(...)` returns `0`), and `some (some x, s)` is a successful parse. -/

mutual

/-- `ParsePrimary`: dispatch on `CurTok` to identifier / number / paren
parsing; any other token is the error "unknown token when expecting an
expression". -/
def ParsePrimary : Nat → PState → Option (Option ExprAST × PState)
  | 0, _ => none
  | n + 1, s =>
    match s.curTok with
    | Tok.identTok _ => ParseIdentifierExpr n s
    | Tok.numTok _ => some (ParseNumber s)
    | Tok.charTok c => if c = '(' then ParseParenExpr n s else some (none, s)
    | _ => some (none, s)

/-- `ParseIdentifierExpr`: a variable reference, unless the identifier is
immediately followed by `'('`, which commits to a call with comma-separated
argument expressions. -/
def ParseIdentifierExpr : Nat → PState → Option (Option ExprAST × PState)
  | 0, _ => none
  | n + 1, s =>
    let idName := identStrOf s.curTok
    let s1 := getNextToken s
    if s1.curTok = Tok.charTok '(' then
      let s2 := getNextToken s1
      if s2.curTok = Tok.charTok ')' then
        some (some (ExprAST.CallExprAST idName []), getNextToken s2)
      else ParseArgsLoop n idName [] s2
    else some (some (ExprAST.VariableExprAST idName), s1)

/-- The `while(1)` argument-list loop inside `ParseIdentifierExpr`: parse an
expression, then either close on `')'`, continue past `','`, or fail with
"Expected ')' or ',' in argument list". -/
def ParseArgsLoop : Nat → String → List ExprAST → PState → Option (Option ExprAST × PState)
  | 0, _, _, _ => none
  | n + 1, idName, args, s =>
    match ParseExpression n s with
    | none => none
    | some (none, s1) => some (none, s1)
    | some (some a, s1) =>
      if s1.curTok = Tok.charTok ')' then
        some (some (ExprAST.CallExprAST idName (args ++ [a])), getNextToken s1)
      else if s1.curTok = Tok.charTok ',' then
        ParseArgsLoop n idName (args ++ [a]) (getNextToken s1)
      else some (none, s1)

/-- `ParseParenExpr`: eat `'('`, parse an expression, require `')'`. -/
def ParseParenExpr : Nat → PState → Option (Option ExprAST × PState)
  | 0, _ => none
  | n + 1, s =>
    let s1 := getNextToken s
    match ParseExpression n s1 with
    | none => none
    | some (none, s2) => some (none, s2)
    | some (some v, s2) =>
      if s2.curTok = Tok.charTok ')' then some (some v, getNextToken s2)
      else some (none, s2)

/-- `ParseBinOpRHS`: the operator-precedence climbing loop of `toy.cpp`.
Note that both precedence reads go through `GetTokPrecedence`, whose map
mutation is threaded into the state. -/
def ParseBinOpRHS : Nat → Int → ExprAST → PState → Option (Option ExprAST × PState)
  | 0, _, _, _ => none
  | n + 1, exprPrec, lhs, s =>
    match GetTokPrecedence s.curTok s.prec with
    | (tokPrec, m1) =>
      let s1 : PState := ⟨s.curTok, s.toks, m1⟩
      if tokPrec < exprPrec then some (some lhs, s1)
      else
        let binOp := charOf s1.curTok
        let s2 := getNextToken s1
        match ParsePrimary n s2 with
        | none => none
        | some (none, s3) => some (none, s3)
        | some (some rhs, s3) =>
          match GetTokPrecedence s3.curTok s3.prec with
          | (nextPrec, m2) =>
            let s4 : PState := ⟨s3.curTok, s3.toks, m2⟩
            if tokPrec < nextPrec then
              match ParseBinOpRHS n (tokPrec + 1) rhs s4 with
              | none => none
              | some (none, s5) => some (none, s5)
              | some (some rhs2, s5) =>
                ParseBinOpRHS n exprPrec (ExprAST.BinaryExprAST binOp lhs rhs2) s5
            else ParseBinOpRHS n exprPrec (ExprAST.BinaryExprAST binOp lhs rhs) s4

/-- `ParseExpression`: a primary followed by the precedence-climbing loop
with minimum precedence `0`. -/
def ParseExpression : Nat → PState → Option (Option ExprAST × PState)
  | 0, _ => none
  | n + 1, s =>
    match ParsePrimary n s with
    | none => none
    | some (none, s1) => some (none, s1)
    | some (some lhs, s1) => ParseBinOpRHS n 0 lhs s1

end

/-- The `while (getNextToken() == tok_identifier)` argument-name loop of
`ParsePrototype`: each iteration loads a token and collects it while it is an
identifier; on exit the first non-identifier token is in `CurTok`. -/
def protoArgsLoop : List Tok → PrecMap → List String × PState
  | [], m => ([], ⟨Tok.eofTok, [], m⟩)
  | t :: ts, m =>
    match t with
    | Tok.identTok a =>
      match protoArgsLoop ts m with
      | (as, s) => (a :: as, s)
    | _ => ([], ⟨t, ts, m⟩)

/-- `ParsePrototype`: `IDENTIFIER '(' IDENTIFIER* ')'`, failing (without
advancing past the offending token) when the function name, the `'('` or the
`')'` is missing. -/
def ParsePrototype (s : PState) : Option PrototypeAST × PState :=
  match s.curTok with
  | Tok.identTok fnName =>
    let s1 := getNextToken s
    if s1.curTok = Tok.charTok '(' then
      match protoArgsLoop s1.toks s1.prec with
      | (argNames, s2) =>
        if s2.curTok = Tok.charTok ')' then
          (some ⟨fnName, argNames⟩, getNextToken s2)
        else (none, s2)
    else (none, s1)
  | _ => (none, s)

/-- `ParseDefintion` (spelled as in the source): eat `def`, parse a
prototype, then a body expression; null children propagate. -/
def ParseDefintion (n : Nat) (s : PState) : Option (Option FunctionAST × PState) :=
  let s1 := getNextToken s
  match ParsePrototype s1 with
  | (none, s2) => some (none, s2)
  | (some proto, s2) =>
    match ParseExpression n s2 with
    | none => none
    | some (none, s3) => some (none, s3)
    | some (some e, s3) => some (some ⟨proto, e⟩, s3)

/-- `ParseTopLevelExpr`: wrap a bare expression in an anonymous prototype
`Prototype("", [])`. -/
def ParseTopLevelExpr (n : Nat) (s : PState) : Option (Option FunctionAST × PState) :=
  match ParseExpression n s with
  | none => none
  | some (none, s1) => some (none, s1)
  | some (some e, s1) => some (some ⟨⟨"", []⟩, e⟩, s1)

/-- `ParseExtern` of `toy.cpp` (the Lean name carries a `Decl` suffix): eat
the `extern` keyword, then parse a prototype; a null prototype propagates
unchanged. -/
def ParseExternDecl (s : PState) : Option PrototypeAST × PState :=
  ParsePrototype (getNextToken s)

/-- Recognizer for the `tok_identifier` case of the `CurTok` register. -/
def isIdentTok : Tok → Bool
  | Tok.identTok _ => true
  | _ => false

/-- Recognizer for the tokens `ParsePrimary` dispatches on; anything else
falls into its "unknown token when expecting an expression" error branch. -/
def isPrimaryStart : Tok → Bool
  | Tok.identTok _ => true
  | Tok.numTok _ => true
  | Tok.charTok c => c = '('
  | _ => false

/-! ## Helper lemmas -/

/-- Appending a fresh binding at the back of the table makes it visible to
lookup when the key was previously absent. -/
theorem lookupPrec_append_self (m : PrecMap) (c : Char) (v : Int)
    (h : lookupPrec m c = none) : lookupPrec (m ++ [(c, v)]) c = some v := by
  induction m with
  | nil => simp [lookupPrec]
  | cons kv t ih =>
    obtain ⟨k, w⟩ := kv
    by_cases hk : k = c
    · simp [lookupPrec, hk] at h
    · simp [lookupPrec, hk] at h ⊢
      exact ih h

/-! ## Claim theorems -/

/-- C1: refutation by evaluation.  The claim says `GetTokPrecedence` returns
`-1` for an ASCII character absent from the seeded table, so that such a
character is never treated as a binary operator by `ParseBinOpRHS`.  In fact
`BinopPrecedence[CurTok]` default-inserts `0` and the guard `TokPrec < 0`
does not fire, so `GetTokPrecedence` returns `0` on `'%'`, and parsing the
token stream `1 % 2` builds `BinaryExpr('%', 1, 2)`: `'%'` is treated as a
binary operator with precedence `0`. -/
theorem GetTokPrecedence_absent_default_zero :
    GetTokPrecedence (Tok.charTok '%') BinopPrecedence =
      (0, BinopPrecedence ++ [('%', 0)]) ∧
    ParseExpression 10
        ⟨Tok.numTok 1, [Tok.charTok '%', Tok.numTok 2], BinopPrecedence⟩ =
      some (some (ExprAST.BinaryExprAST '%'
              (ExprAST.NumberExprAST 1) (ExprAST.NumberExprAST 2)),
            ⟨Tok.eofTok, [], BinopPrecedence ++ [('%', 0)]⟩) :=
  ⟨rfl, rfl⟩

/-- C3: refutation by evaluation.  Parsing the token stream of
`foo(1, 2+3)` does not yield the claimed
`CallExpr("foo", [1, BinaryExpr('+',2,3)])`: inside the first argument the
`','` (and then the `')'`) is default-inserted into the precedence table with
precedence `0` and consumed as a binary operator, after which `ParsePrimary`
hits `tok_eof` and the whole call parse returns null. -/
theorem parse_call_args_returns_null :
    ParseIdentifierExpr 20
        ⟨Tok.identTok "foo",
         [Tok.charTok '(', Tok.numTok 1, Tok.charTok ',', Tok.numTok 2,
          Tok.charTok '+', Tok.numTok 3, Tok.charTok ')'],
         BinopPrecedence⟩ =
      some (none, ⟨Tok.eofTok, [], BinopPrecedence ++ [(',', 0), (')', 0)]⟩) :=
  rfl

/-- C4: the two precedence/associativity example inputs parse to exactly the
claimed trees (`1+2*3` binds `2*3` first; `1-2-3` associates left), but the
claim's universal statement over every valid expression input fails: the
valid expression `(1)` parses to null, because the closing `')'` is
default-inserted into the precedence table with precedence `0` and consumed
as a binary operator. -/
theorem parse_precedence_shapes :
    ParseExpression 20
        ⟨Tok.numTok 1, [Tok.charTok '+', Tok.numTok 2, Tok.charTok '*', Tok.numTok 3],
         BinopPrecedence⟩ =
      some (some (ExprAST.BinaryExprAST '+' (ExprAST.NumberExprAST 1)
              (ExprAST.BinaryExprAST '*' (ExprAST.NumberExprAST 2)
                (ExprAST.NumberExprAST 3))),
            ⟨Tok.eofTok, [], BinopPrecedence⟩) ∧
    ParseExpression 20
        ⟨Tok.numTok 1, [Tok.charTok '-', Tok.numTok 2, Tok.charTok '-', Tok.numTok 3],
         BinopPrecedence⟩ =
      some (some (ExprAST.BinaryExprAST '-'
              (ExprAST.BinaryExprAST '-' (ExprAST.NumberExprAST 1)
                (ExprAST.NumberExprAST 2))
              (ExprAST.NumberExprAST 3)),
            ⟨Tok.eofTok, [], BinopPrecedence⟩) ∧
    ParseExpression 20
        ⟨Tok.charTok '(', [Tok.numTok 1, Tok.charTok ')'], BinopPrecedence⟩ =
      some (none, ⟨Tok.eofTok, [], BinopPrecedence ++ [(')', 0)]⟩) :=
  ⟨rfl, rfl, rfl⟩

/-- C8: whenever `ParseExpression` succeeds on the input, `ParseTopLevelExpr`
returns a `Function` whose prototype has the empty string as name and an
empty parameter list, and whose body is the parsed expression. -/
theorem parseTopLevel_anonymous (n : Nat) (s : PState) (e : ExprAST) (s1 : PState)
    (h : ParseExpression n s = some (some e, s1)) :
    ParseTopLevelExpr n s = some (some ⟨⟨"", []⟩, e⟩, s1) := by
  unfold ParseTopLevelExpr
  rw [h]

/-- Witness for `parseTopLevel_anonymous` at the bare expression `7`. -/
theorem parseTopLevel_anonymous_w :
    ParseTopLevelExpr 10 ⟨Tok.numTok 7, [], BinopPrecedence⟩ =
      some (some ⟨⟨"", []⟩, ExprAST.NumberExprAST 7⟩,
            ⟨Tok.eofTok, [], BinopPrecedence⟩) :=
  parseTopLevel_anonymous 10 ⟨Tok.numTok 7, [], BinopPrecedence⟩
    (ExprAST.NumberExprAST 7) ⟨Tok.eofTok, [], BinopPrecedence⟩ rfl

/-- C10: `GetTokPrecedence` is not a pure query.  For every ASCII character
token absent from the table, the call grows the shared map by that character
with value `0` (the `std::map::operator[]` default-insertion) and afterwards
the stored precedence of that character is `0`. -/
theorem GetTokPrecedence_inserts_zero (c : Char) (m : PrecMap)
    (hascii : c.toNat ≤ 127) (habs : lookupPrec m c = none) :
    GetTokPrecedence (Tok.charTok c) m = (0, m ++ [(c, 0)]) ∧
    lookupPrec (m ++ [(c, 0)]) c = some 0 := by
  constructor
  · unfold GetTokPrecedence mapIndex
    dsimp only
    rw [habs]
    simp [hascii]
  · exact lookupPrec_append_self m c 0 habs

/-- Witness for `GetTokPrecedence_inserts_zero` at `'%'` and the seeded
table. -/
theorem GetTokPrecedence_inserts_zero_w :
    GetTokPrecedence (Tok.charTok '%') BinopPrecedence =
      (0, BinopPrecedence ++ [('%', 0)]) ∧
    lookupPrec (BinopPrecedence ++ [('%', 0)]) '%' = some 0 :=
  GetTokPrecedence_inserts_zero '%' BinopPrecedence (by decide) (by decide)

/-- C5: error propagation and non-advancement, for every parse routine of
`toy.cpp`.  Whenever a routine detects a structural violation it returns null
with the offending token still in the `CurTok` register (never advanced past
it), and whenever a child production returns null the routine immediately
returns null itself, handing back the child's state and no partial AST.
Conjunct by conjunct: (1) `ParsePrototype` with no function name; (2)
`ParsePrototype` with a missing `'('`; (3) `ParsePrototype` with a missing
`')'`; (4) `ParseDefintion` when the prototype child is null; (5)
`ParseDefintion` when the body-expression child is null; (6) `ParsePrimary`
on an unknown token; (7) `ParseParenExpr` when the inner expression is null;
(8) `ParseParenExpr` with a missing `')'`; (9) the argument loop of
`ParseIdentifierExpr` when an argument expression is null; (10) the argument
loop on a token that is neither `')'` nor `','`; (11) `ParseIdentifierExpr`
propagating a null argument list; (12) `ParseBinOpRHS` when the right-hand
primary is null; (13) `ParseBinOpRHS` when the recursive higher-precedence
right-hand side is null; (14) `ParseExpression` when its primary is null;
(15) `ParseTopLevelExpr` when its expression is null; (16) `ParseExtern`
(embedded as `ParseExternDecl`) when its prototype is null.  `ParseNumber`
never fails, so it has nothing to propagate. -/
theorem parse_null_propagation (n : Nat) (s : PState) :
    (isIdentTok s.curTok = false → ParsePrototype s = (none, s)) ∧
    (∀ fn, s.curTok = Tok.identTok fn →
      (getNextToken s).curTok ≠ Tok.charTok '(' →
      ParsePrototype s = (none, getNextToken s)) ∧
    (∀ fn args s2, s.curTok = Tok.identTok fn →
      (getNextToken s).curTok = Tok.charTok '(' →
      protoArgsLoop (getNextToken s).toks (getNextToken s).prec = (args, s2) →
      s2.curTok ≠ Tok.charTok ')' →
      ParsePrototype s = (none, s2)) ∧
    ((ParsePrototype (getNextToken s)).1 = none →
      ParseDefintion n s = some (none, (ParsePrototype (getNextToken s)).2)) ∧
    (∀ p s2 s3, ParsePrototype (getNextToken s) = (some p, s2) →
      ParseExpression n s2 = some (none, s3) →
      ParseDefintion n s = some (none, s3)) ∧
    (isPrimaryStart s.curTok = false → ParsePrimary (n + 1) s = some (none, s)) ∧
    (∀ s2, ParseExpression n (getNextToken s) = some (none, s2) →
      ParseParenExpr (n + 1) s = some (none, s2)) ∧
    (∀ v s2, ParseExpression n (getNextToken s) = some (some v, s2) →
      s2.curTok ≠ Tok.charTok ')' →
      ParseParenExpr (n + 1) s = some (none, s2)) ∧
    (∀ idName args s2, ParseExpression n s = some (none, s2) →
      ParseArgsLoop (n + 1) idName args s = some (none, s2)) ∧
    (∀ idName args a s2, ParseExpression n s = some (some a, s2) →
      s2.curTok ≠ Tok.charTok ')' → s2.curTok ≠ Tok.charTok ',' →
      ParseArgsLoop (n + 1) idName args s = some (none, s2)) ∧
    (∀ s2, (getNextToken s).curTok = Tok.charTok '(' →
      (getNextToken (getNextToken s)).curTok ≠ Tok.charTok ')' →
      ParseArgsLoop n (identStrOf s.curTok) [] (getNextToken (getNextToken s)) =
        some (none, s2) →
      ParseIdentifierExpr (n + 1) s = some (none, s2)) ∧
    (∀ exprPrec lhs tokPrec m1 s3,
      GetTokPrecedence s.curTok s.prec = (tokPrec, m1) →
      ¬ tokPrec < exprPrec →
      ParsePrimary n (getNextToken ⟨s.curTok, s.toks, m1⟩) = some (none, s3) →
      ParseBinOpRHS (n + 1) exprPrec lhs s = some (none, s3)) ∧
    (∀ exprPrec lhs tokPrec m1 rhs s3 nextPrec m2 s5,
      GetTokPrecedence s.curTok s.prec = (tokPrec, m1) →
      ¬ tokPrec < exprPrec →
      ParsePrimary n (getNextToken ⟨s.curTok, s.toks, m1⟩) = some (some rhs, s3) →
      GetTokPrecedence s3.curTok s3.prec = (nextPrec, m2) →
      tokPrec < nextPrec →
      ParseBinOpRHS n (tokPrec + 1) rhs ⟨s3.curTok, s3.toks, m2⟩ = some (none, s5) →
      ParseBinOpRHS (n + 1) exprPrec lhs s = some (none, s5)) ∧
    (∀ s2, ParsePrimary n s = some (none, s2) →
      ParseExpression (n + 1) s = some (none, s2)) ∧
    (∀ s2, ParseExpression n s = some (none, s2) →
      ParseTopLevelExpr n s = some (none, s2)) ∧
    (∀ s2, ParsePrototype (getNextToken s) = (none, s2) →
      ParseExternDecl s = (none, s2)) := by
  obtain ⟨ct, ts, m⟩ := s
  refine ⟨?_, ?_, ?_, ?_, ?_, ?_, ?_, ?_, ?_, ?_, ?_, ?_, ?_, ?_, ?_, ?_⟩
  · intro hna
    cases ct <;> simp_all [ParsePrototype, isIdentTok]
  · intro fn hfn hpar
    cases ct <;> simp_all [ParsePrototype]
  · intro fn args s2 hfn hpar hloop hrp
    cases ct <;> simp_all [ParsePrototype]
  · intro hp
    rcases hpp : ParsePrototype (getNextToken ⟨ct, ts, m⟩) with ⟨o, st⟩
    rw [hpp] at hp
    simp at hp
    subst hp
    simp [ParseDefintion, hpp]
  · intro p s2 s3 hpp hexp
    simp [ParseDefintion, hpp, hexp]
  · intro hps
    cases ct <;> simp_all [ParsePrimary, isPrimaryStart]
  · intro s2 h
    simp [ParseParenExpr, h]
  · intro v s2 h1 h2
    simp [ParseParenExpr, h1, h2]
  · intro idName args s2 h
    simp [ParseArgsLoop, h]
  · intro idName args a s2 h1 h2 h3
    simp [ParseArgsLoop, h1, h2, h3]
  · intro s2 h1 h2 h3
    simp [ParseIdentifierExpr, h1, h2, h3]
  · intro exprPrec lhs tokPrec m1 s3 hg hlt hp
    simp [ParseBinOpRHS, hg, hlt, hp]
  · intro exprPrec lhs tokPrec m1 rhs s3 nextPrec m2 s5 hg hlt hp hg2 hlt2 hrec
    simp [ParseBinOpRHS, hg, hlt, hp, hg2, hlt2, hrec]
  · intro s2 h
    simp [ParseExpression, h]
  · intro s2 h
    simp [ParseTopLevelExpr, h]
  · intro s2 h
    simp [ParseExternDecl, h]

/-- Witness for `parse_null_propagation`: each of the sixteen conjuncts
applied at a concrete state — every routine's structural-violation and
null-child cases exercised. -/
theorem parse_null_propagation_w :
    ParsePrototype ⟨Tok.defTok, [], BinopPrecedence⟩ =
      (none, ⟨Tok.defTok, [], BinopPrecedence⟩) ∧
    ParsePrototype ⟨Tok.identTok "f", [Tok.numTok 2], BinopPrecedence⟩ =
      (none, ⟨Tok.numTok 2, [], BinopPrecedence⟩) ∧
    ParsePrototype ⟨Tok.identTok "f", [Tok.charTok '(', Tok.numTok 3], BinopPrecedence⟩ =
      (none, ⟨Tok.numTok 3, [], BinopPrecedence⟩) ∧
    ParseDefintion 10 ⟨Tok.defTok, [Tok.numTok 5], BinopPrecedence⟩ =
      some (none, ⟨Tok.numTok 5, [], BinopPrecedence⟩) ∧
    ParseDefintion 10
        ⟨Tok.defTok, [Tok.identTok "f", Tok.charTok '(', Tok.charTok ')', Tok.defTok],
         BinopPrecedence⟩ =
      some (none, ⟨Tok.defTok, [], BinopPrecedence⟩) ∧
    ParsePrimary 11 ⟨Tok.charTok '+', [], BinopPrecedence⟩ =
      some (none, ⟨Tok.charTok '+', [], BinopPrecedence⟩) ∧
    ParseParenExpr 11 ⟨Tok.charTok '(', [Tok.defTok], BinopPrecedence⟩ =
      some (none, ⟨Tok.defTok, [], BinopPrecedence⟩) ∧
    ParseParenExpr 11 ⟨Tok.charTok '(', [Tok.numTok 1, Tok.defTok], BinopPrecedence⟩ =
      some (none, ⟨Tok.defTok, [], BinopPrecedence⟩) ∧
    ParseArgsLoop 11 "g" [] ⟨Tok.defTok, [], BinopPrecedence⟩ =
      some (none, ⟨Tok.defTok, [], BinopPrecedence⟩) ∧
    ParseArgsLoop 11 "g" [] ⟨Tok.numTok 1, [Tok.defTok], BinopPrecedence⟩ =
      some (none, ⟨Tok.defTok, [], BinopPrecedence⟩) ∧
    ParseIdentifierExpr 11 ⟨Tok.identTok "g", [Tok.charTok '(', Tok.defTok], BinopPrecedence⟩ =
      some (none, ⟨Tok.defTok, [], BinopPrecedence⟩) ∧
    ParseBinOpRHS 11 0 (ExprAST.NumberExprAST 1)
        ⟨Tok.charTok '+', [Tok.defTok], BinopPrecedence⟩ =
      some (none, ⟨Tok.defTok, [], BinopPrecedence⟩) ∧
    ParseBinOpRHS 11 0 (ExprAST.NumberExprAST 1)
        ⟨Tok.charTok '+', [Tok.numTok 2, Tok.charTok '*', Tok.defTok], BinopPrecedence⟩ =
      some (none, ⟨Tok.defTok, [], BinopPrecedence⟩) ∧
    ParseExpression 11 ⟨Tok.defTok, [], BinopPrecedence⟩ =
      some (none, ⟨Tok.defTok, [], BinopPrecedence⟩) ∧
    ParseTopLevelExpr 10 ⟨Tok.defTok, [], BinopPrecedence⟩ =
      some (none, ⟨Tok.defTok, [], BinopPrecedence⟩) ∧
    ParseExternDecl ⟨Tok.extTok, [Tok.numTok 3], BinopPrecedence⟩ =
      (none, ⟨Tok.numTok 3, [], BinopPrecedence⟩) := by
  refine ⟨?_, ?_, ?_, ?_, ?_, ?_, ?_, ?_, ?_, ?_, ?_, ?_, ?_, ?_, ?_, ?_⟩
  · exact (parse_null_propagation 10 ⟨Tok.defTok, [], BinopPrecedence⟩).1 (by decide)
  · exact (parse_null_propagation 10 ⟨Tok.identTok "f", [Tok.numTok 2], BinopPrecedence⟩).2.1
      "f" rfl (by decide)
  · exact (parse_null_propagation 10
      ⟨Tok.identTok "f", [Tok.charTok '(', Tok.numTok 3], BinopPrecedence⟩).2.2.1
      "f" [] ⟨Tok.numTok 3, [], BinopPrecedence⟩ rfl rfl rfl (by decide)
  · exact (parse_null_propagation 10 ⟨Tok.defTok, [Tok.numTok 5], BinopPrecedence⟩).2.2.2.1 rfl
  · exact (parse_null_propagation 10
      ⟨Tok.defTok, [Tok.identTok "f", Tok.charTok '(', Tok.charTok ')', Tok.defTok],
       BinopPrecedence⟩).2.2.2.2.1
      ⟨"f", []⟩ ⟨Tok.defTok, [], BinopPrecedence⟩ ⟨Tok.defTok, [], BinopPrecedence⟩ rfl rfl
  · exact (parse_null_propagation 10
      ⟨Tok.charTok '+', [], BinopPrecedence⟩).2.2.2.2.2.1 (by decide)
  · exact (parse_null_propagation 10
      ⟨Tok.charTok '(', [Tok.defTok], BinopPrecedence⟩).2.2.2.2.2.2.1
      ⟨Tok.defTok, [], BinopPrecedence⟩ rfl
  · exact (parse_null_propagation 10
      ⟨Tok.charTok '(', [Tok.numTok 1, Tok.defTok], BinopPrecedence⟩).2.2.2.2.2.2.2.1
      (ExprAST.NumberExprAST 1) ⟨Tok.defTok, [], BinopPrecedence⟩ rfl (by decide)
  · exact (parse_null_propagation 10
      ⟨Tok.defTok, [], BinopPrecedence⟩).2.2.2.2.2.2.2.2.1
      "g" [] ⟨Tok.defTok, [], BinopPrecedence⟩ rfl
  · exact (parse_null_propagation 10
      ⟨Tok.numTok 1, [Tok.defTok], BinopPrecedence⟩).2.2.2.2.2.2.2.2.2.1
      "g" [] (ExprAST.NumberExprAST 1) ⟨Tok.defTok, [], BinopPrecedence⟩
      rfl (by decide) (by decide)
  · exact (parse_null_propagation 10
      ⟨Tok.identTok "g", [Tok.charTok '(', Tok.defTok], BinopPrecedence⟩).2.2.2.2.2.2.2.2.2.2.1
      ⟨Tok.defTok, [], BinopPrecedence⟩ rfl (by decide) rfl
  · exact (parse_null_propagation 10
      ⟨Tok.charTok '+', [Tok.defTok], BinopPrecedence⟩).2.2.2.2.2.2.2.2.2.2.2.1
      0 (ExprAST.NumberExprAST 1) 20 BinopPrecedence ⟨Tok.defTok, [], BinopPrecedence⟩
      rfl (by decide) rfl
  · exact (parse_null_propagation 10
      ⟨Tok.charTok '+', [Tok.numTok 2, Tok.charTok '*', Tok.defTok],
       BinopPrecedence⟩).2.2.2.2.2.2.2.2.2.2.2.2.1
      0 (ExprAST.NumberExprAST 1) 20 BinopPrecedence (ExprAST.NumberExprAST 2)
      ⟨Tok.charTok '*', [Tok.defTok], BinopPrecedence⟩ 40 BinopPrecedence
      ⟨Tok.defTok, [], BinopPrecedence⟩ rfl (by decide) rfl rfl (by decide) rfl
  · exact (parse_null_propagation 10
      ⟨Tok.defTok, [], BinopPrecedence⟩).2.2.2.2.2.2.2.2.2.2.2.2.2.1
      ⟨Tok.defTok, [], BinopPrecedence⟩ rfl
  · exact (parse_null_propagation 10
      ⟨Tok.defTok, [], BinopPrecedence⟩).2.2.2.2.2.2.2.2.2.2.2.2.2.2.1
      ⟨Tok.defTok, [], BinopPrecedence⟩ rfl
  · exact (parse_null_propagation 10
      ⟨Tok.extTok, [Tok.numTok 3], BinopPrecedence⟩).2.2.2.2.2.2.2.2.2.2.2.2.2.2.2
      ⟨Tok.numTok 3, [], BinopPrecedence⟩ rfl

/-- The accumulation loops of `gettok` compute the longest run of characters
satisfying the predicate, leave the first failing character (or the `EOF`
mark) in the lookahead, and leave the rest of the stream untouched. -/
theorem scanWhile_eq (p : Char → Bool) (acc inp : List Char) :
    scanWhile p acc inp =
      (acc ++ inp.takeWhile p,
       ((inp.dropWhile p).head?, (inp.dropWhile p).tail)) := by
  induction inp generalizing acc with
  | nil => simp [scanWhile]
  | cons h t ih =>
    by_cases hp : p h
    · simp [scanWhile, hp, ih, List.takeWhile_cons, List.dropWhile_cons]
    · simp [scanWhile, hp, List.takeWhile_cons, List.dropWhile_cons]

/-- The comment loop of `toy.cpp` entered at `'#'` never exits, whatever the
fuel: its body is empty, so the lookahead can never become end-of-line or
end-of-stream. -/
theorem commentSkip_hash (k : Nat) : commentSkip k (some '#') = none := by
  induction k with
  | zero => rfl
  | succ n ih =>
    unfold commentSkip
    rw [if_pos (by decide)]
    exact ih

/-- The identifier branch never produces the end token. -/
theorem classifyIdent_ne_eof (s : String) : classifyIdent s ≠ Tok.eofTok := by
  unfold classifyIdent
  split_ifs <;> simp

/-- A character accepted by the numeric branch is not alphabetic. -/
theorem isnum_not_alpha (c : Char) (h : isnumC c = true) : isalphaC c = false := by
  by_cases hd : c = '.'
  · subst hd; decide
  · have hdig : isdigitC c = true := by
      simp [isnumC, hd] at h
      exact h
    simp only [isdigitC, Bool.and_eq_true, decide_eq_true_eq] at hdig
    simp only [isalphaC, Bool.or_eq_false_iff, Bool.and_eq_false_iff,
      decide_eq_false_iff_not, not_le]
    omega

/-- C2: refutation by evaluation.  On the stream `"# c\n1"` (whose next
non-whitespace character is `'#'`), `gettok` does not terminate for any fuel
bound: the comment loop `do {} while (LastChar != EOF && LastChar != '\n' &&
LastChar != '\r');` has an empty body, so `LastChar` stays `'#'` and the loop
never exits; the claimed behaviour — discard the comment and scan the `1` —
is never reached. -/
theorem gettok_comment_never_returns (fuel : Nat) :
    gettok fuel ⟨some ' ', "# c\n1".toList⟩ = none := by
  cases fuel with
  | zero => rfl
  | succ n =>
    have hskip : skipSpaces (some ' ') ("# c\n1".toList) =
        (some '#', " c\n1".toList) := by decide
    simp only [gettok]
    rw [hskip]
    simp [commentSkip_hash, show isalphaC '#' = false from by decide,
      show isnumC '#' = false from by decide]

/-- C9: once the source has reported end-of-stream (`LastChar == EOF`), every
call to `gettok` returns the end token and leaves the scanner state — the
`EOF` lookahead in particular — unchanged; moreover whenever `gettok` returns
the end token at all, the resulting lookahead is the `EOF` mark, so every
subsequent call again returns the end token: the scanner never yields another
token after the end token. -/
theorem gettok_eof_permanent (n : Nat) (inp : List Char) (s : ScanState)
    (t : Tok) (s2 : ScanState) :
    gettok (n + 1) ⟨none, inp⟩ = some (Tok.eofTok, ⟨none, inp⟩) ∧
    (gettok n s = some (t, s2) → t = Tok.eofTok → s2.lastChar = none) := by
  constructor
  · simp only [gettok, skipSpaces]
  · intro h heq
    cases n with
    | zero => simp [gettok] at h
    | succ m =>
      subst heq
      rw [gettok] at h
      rcases hsk : skipSpaces s.lastChar s.input with ⟨lc, inp2⟩
      rw [hsk] at h
      match lc with
      | none =>
        simp at h
        subst h
        rfl
      | some c =>
        by_cases ha : isalphaC c
        · rcases hsw : scanWhile isalnumC [c] inp2 with ⟨buf, lc2, inp3⟩
          simp [ha, hsw] at h
          exact absurd h.1 (classifyIdent_ne_eof (String.mk buf))
        · by_cases hnm : isnumC c
          · rcases hsw : scanWhile isnumC [c] inp2 with ⟨buf, lc2, inp3⟩
            simp [ha, hnm, hsw] at h
          · by_cases hc : c = '#'
            · subst hc
              simp [ha, hnm, commentSkip_hash] at h
            · simp [ha, hnm, hc] at h

/-- Witness for `gettok_eof_permanent`: at the exhausted stream the scanner
returns the end token with the state unchanged, and its `EOF` lookahead
persists. -/
theorem gettok_eof_permanent_w :
    gettok 2 ⟨none, []⟩ = some (Tok.eofTok, ⟨none, []⟩) ∧
    (⟨none, []⟩ : ScanState).lastChar = none :=
  ⟨(gettok_eof_permanent 1 [] ⟨none, []⟩ Tok.eofTok ⟨none, []⟩).1,
   (gettok_eof_permanent 1 [] ⟨none, []⟩ Tok.eofTok ⟨none, []⟩).2 rfl rfl⟩

/-- C6: when the lookahead after whitespace-skipping is alphabetic, `gettok`
accumulates that character and all following alphanumeric characters into a
buffer and returns `tok_def` exactly when the buffer is `"def"`, `tok_extern`
exactly when it is `"extern"`, and otherwise `tok_identifier` carrying the
buffer.  The second conjunct spells out the exactly-when, case-sensitive
classification for an arbitrary buffer. -/
theorem gettok_alpha_ident (n : Nat) (s : ScanState) (c : Char) (inp : List Char)
    (hskip : skipSpaces s.lastChar s.input = (some c, inp))
    (halpha : isalphaC c = true) :
    gettok (n + 1) s =
      some (classifyIdent (String.mk (c :: inp.takeWhile isalnumC)),
            ⟨(inp.dropWhile isalnumC).head?, (inp.dropWhile isalnumC).tail⟩) ∧
    (∀ str : String,
      (classifyIdent str = Tok.defTok ↔ str = "def") ∧
      (classifyIdent str = Tok.extTok ↔ str = "extern") ∧
      (str ≠ "def" → str ≠ "extern" → classifyIdent str = Tok.identTok str)) := by
  constructor
  · simp only [gettok]
    rw [hskip]
    simp [halpha, scanWhile_eq]
  · intro str
    unfold classifyIdent
    split_ifs with h1 h2
    · subst h1
      refine ⟨by simp, by decide, by simp⟩
    · subst h2
      refine ⟨by decide, by simp, by simp⟩
    · exact ⟨by simp [h1], by simp [h2], fun _ _ => rfl⟩

/-- Witness for `gettok_alpha_ident`: scanning `" extern x"` yields the
`tok_extern` keyword token with the space lookahead and `"x"` left, and the
case-sensitivity of the comparison: the buffer `"Def"` is an identifier, not
the `def` keyword. -/
theorem gettok_alpha_ident_w :
    gettok 5 ⟨some ' ', "extern x".toList⟩ =
      some (Tok.extTok, ⟨some ' ', "x".toList⟩) ∧
    classifyIdent "Def" = Tok.identTok "Def" := by
  have h := gettok_alpha_ident 4 ⟨some ' ', "extern x".toList⟩ 'e'
    "xtern x".toList (by decide) (by decide)
  exact ⟨h.1, (h.2 "Def").2.2 (by decide) (by decide)⟩

/-- C7: when the lookahead after whitespace-skipping is a digit or `'.'`,
`gettok` accumulates characters while they remain digit-or-dot, hands the
buffer to `strtod` (modelled by `strtodQ`: decimal parsing of the longest
acceptable prefix, exact rational value) and returns a number token carrying
that value.  The second conjunct evaluates the malformed literal `12.3.25`:
it is not rejected — the whole run is consumed and the value is the accepted
prefix `12.3`. -/
theorem gettok_number_literal (n : Nat) (s : ScanState) (c : Char) (inp : List Char)
    (hskip : skipSpaces s.lastChar s.input = (some c, inp))
    (hnum : isnumC c = true) :
    gettok (n + 1) s =
      some (Tok.numTok (strtodQ (c :: inp.takeWhile isnumC)),
            ⟨(inp.dropWhile isnumC).head?, (inp.dropWhile isnumC).tail⟩) ∧
    gettok 5 ⟨some ' ', "12.3.25+x".toList⟩ =
      some (Tok.numTok (strtodQ "12.3.25".toList), ⟨some '+', "x".toList⟩) ∧
    strtodQ "12.3.25".toList = 123 / 10 := by
  have gen : ∀ (k : Nat) (s0 : ScanState) (c0 : Char) (inp0 : List Char),
      skipSpaces s0.lastChar s0.input = (some c0, inp0) → isnumC c0 = true →
      gettok (k + 1) s0 =
        some (Tok.numTok (strtodQ (c0 :: inp0.takeWhile isnumC)),
              ⟨(inp0.dropWhile isnumC).head?, (inp0.dropWhile isnumC).tail⟩) := by
    intro k s0 c0 inp0 hs hn
    simp only [gettok]
    rw [hs]
    simp [isnum_not_alpha c0 hn, hn, scanWhile_eq]
  refine ⟨gen n s c inp hskip hnum, ?_, ?_⟩
  · exact gen 4 ⟨some ' ', "12.3.25+x".toList⟩ '1' "2.3.25+x".toList
      (by decide) (by decide)
  · have hip : "12.3.25".toList.takeWhile isdigitC = ['1', '2'] := by decide
    have hdp : "12.3.25".toList.dropWhile isdigitC = '.' :: "3.25".toList := by decide
    have hfp : "3.25".toList.takeWhile isdigitC = ['3'] := by decide
    unfold strtodQ
    rw [hip, hdp]
    simp only [hfp, if_pos rfl]
    norm_num [natOfDigits, show '1'.toNat = 49 from by decide,
      show '2'.toNat = 50 from by decide, show '3'.toNat = 51 from by decide]

/-- Witness for `gettok_number_literal`: scanning `"4.5)"` (`'4'` already in
the lookahead) yields the number token of value `strtodQ "4.5" = 9/2` with
the `')'` left as lookahead. -/
theorem gettok_number_literal_w :
    gettok 3 ⟨some '4', ".5)".toList⟩ =
      some (Tok.numTok (strtodQ "4.5".toList), ⟨some ')', []⟩) ∧
    strtodQ "4.5".toList = 9 / 2 := by
  constructor
  · exact (gettok_number_literal 2 ⟨some '4', ".5)".toList⟩ '4' ".5)".toList
      (by decide) (by decide)).1
  · have hip : "4.5".toList.takeWhile isdigitC = ['4'] := by decide
    have hdp : "4.5".toList.dropWhile isdigitC = '.' :: "5".toList := by decide
    have hfp : "5".toList.takeWhile isdigitC = ['5'] := by decide
    unfold strtodQ
    rw [hip, hdp]
    simp only [hfp, if_pos rfl]
    norm_num [natOfDigits, show '4'.toNat = 52 from by decide,
      show '5'.toNat = 53 from by decide]

end Toy
